import Mathlib

/-!
Verification of the ingestion orchestration core of the virtues repository.

Shallow embedding of:
  - sources/base/interfaces/sync.py           (BaseSync.get_sync_date_range)
  - sources/base/scheduler/tasks/sync_sources.py  (sync_stream task)
  - sources/base/scheduler/tasks/maintenance_tasks.py (should_sync)
  - sources/base/auth/device_token.py         (DeviceTokenHandler)
  - sources/base/processors/base.py           (StreamProcessor.process_batch)
  - sources/base/clients/base.py              (BaseAPIClient._execute_request)
  - sources/google/calendar/sync.py           (sync-token merge)

Times are modelled as integer seconds (Int or Nat), strings either as Lean
String or as byte lists (List Nat) where the byte-level behaviour of
base64 / splitting matters.
-/

/-! ## BaseSync.get_sync_date_range (sources/base/interfaces/sync.py) -/

/-- The fields of the stream wrapper that `BaseSync` reads via `getattr`.
`none` models a missing / NULL attribute, in which case the `getattr`
default applies. -/
structure SyncStream where
  last_successful_ingestion_at : Option Int
  initial_sync_type : Option String
  initial_sync_days : Option Int
  initial_sync_days_future : Option Int

/-- Embedding of `BaseSync.is_initial_sync`: true iff the stream has no
last-successful-ingestion timestamp. -/
def is_initial_sync (s : SyncStream) : Bool :=
  s.last_successful_ingestion_at.isNone

/-- One day in seconds (`timedelta(days=1)`). -/
def secondsPerDay : Int := 86400

/-- Embedding of `BaseSync.get_sync_date_range`.  `now` is the current UTC time in
seconds; `fullRange` and `incRange` are the results of the
connector-specific `get_full_sync_range` / `get_incremental_sync_range`
(abstract methods, passed as values). -/
def get_sync_date_range (s : SyncStream) (now : Int)
    (fullRange incRange : Option Int × Option Int) :
    Option Int × Option Int :=
  if is_initial_sync s then
    if s.initial_sync_type.getD "limited" == "full" then
      fullRange
    else
      (some (now - secondsPerDay * s.initial_sync_days.getD 90),
       some (now + secondsPerDay * s.initial_sync_days_future.getD 30))
  else
    incRange

/-! ## Terminal-error classification and retry backoff
(sync_stream, sources/base/scheduler/tasks/sync_sources.py lines 283-328) -/

/-- Python substring containment (`pat in s`) on char lists. -/
def hasSub (pat : List Char) : List Char → Bool
  | [] => pat.isEmpty
  | c :: rest => decide ((c :: rest).take pat.length = pat) || hasSub pat rest

/-- The fixed tuple `non_retryable_errors` from `sync_stream`. -/
def non_retryable_errors : List (List Char) :=
  ["ProgrammingError".toList, "UndefinedColumn".toList,
   "AuthenticationError".toList, "PermissionError".toList,
   "Unauthorized".toList]

/-- Python `should_retry = not any(error_type in error_message for ...)`. -/
def should_retry (error_message : List Char) : Bool :=
  !(non_retryable_errors.any (fun m => hasSub m error_message))

/-- Formatting `error_message = f"{type(e).__name__}: {str(e)}"`. -/
def format_error_message (tyName msg : List Char) : List Char :=
  tyName ++ (": ".toList) ++ msg

/-- Celery `max_retries` from `retry_kwargs={'max_retries': 3}`. -/
def sync_max_retries : Nat := 3

/-- Outcome of the tail of the `except` block: either raise `Retry`
with an explicit countdown (`self.retry(countdown=..)`) or re-raise the
original exception out of the task body. -/
inductive RetryDecision where
  | retry (countdown : Nat)
  | reraise
deriving DecidableEq, Repr

/-- The custom retry logic at the end of `sync_stream`'s `except` block:
`if should_retry and self.request.retries < self.max_retries:
   countdown = 60 * (2 ** self.request.retries); raise self.retry(...)
 else: raise`.
A `reraise` propagates the original exception out of the task body,
where the task decorator's autoretry wrapper still sees it
(`sync_stream_task_fate` below). -/
def retry_decision (error_message : List Char) (retries : Nat) : RetryDecision :=
  if should_retry error_message ∧ retries < sync_max_retries then
    .retry (60 * 2 ^ retries)
  else
    .reraise

/-- Final fate of one failed `sync_stream` execution, as seen by the
broker: re-enqueued with a countdown, or failed permanently. -/
inductive TaskFate where
  | reenqueued (countdown : Nat)
  | failed
deriving DecidableEq, Repr

/-- Celery `Task.default_retry_delay` (180 seconds), the countdown
`Task.retry` falls back to when its caller supplies neither `countdown`
nor `eta`. -/
def celery_default_retry_delay : Nat := 180

/-- Fate of a failed `sync_stream` execution.  The task is declared
`@app.task(name="sync_stream", bind=True, autoretry_for=(Exception,),
retry_kwargs={'max_retries': 3})` (sync_sources.py lines 92-93), and
Celery's autoretry wrapper (third-party, modelled) wraps the body in
`try: ... except Retry: raise
 except autoretry_for as exc: raise task.retry(exc=exc, **retry_kwargs)`.
So the `Retry` raised by the custom `self.retry(countdown=60 * 2 **
retries)` call passes through unchanged and re-enqueues with that
countdown, while any other exception leaving the body — including a
bare-raised terminal-marker error — is caught and handed to
`task.retry(exc=exc, max_retries=3)`, which re-enqueues with the
default countdown while `request.retries + 1 <= max_retries` and only
raises `exc` (failing the task permanently) once attempts are
exhausted. -/
def sync_stream_task_fate (error_message : List Char) (retries : Nat) :
    TaskFate :=
  match retry_decision error_message retries with
  | .retry countdown => .reenqueued countdown
  | .reraise =>
    if retries + 1 > sync_max_retries then .failed
    else .reenqueued celery_default_retry_delay

/-! ## Scheduler due-check (should_sync, maintenance_tasks.py lines 137-167)

`should_sync` evaluates the stream's cron schedule with `croniter`,
anchored at `last_ingestion_at`, and fires when the next scheduled time
is `<= now`.  `croniter` is a third-party library; its behaviour for the
one expression the claim is about, `*/30 * * * *`, is modelled exactly:
the next fire time strictly after base `t` is the next multiple of 1800
seconds (30 minutes) strictly greater than `t`, with seconds zeroed. -/

/-- Model of `croniter(expr, base).get_next(datetime)` for the supported
expression; `none` models a croniter parse/evaluation exception for an
unsupported expression (which `should_sync` turns into `False`). -/
def cron_next (expr : String) (base : Nat) : Option Nat :=
  if expr == "*/30 * * * *" then
    some ((base / 1800 + 1) * 1800)
  else
    none

/-- The stream row fields read by `should_sync`. -/
structure SchedStream where
  cron_schedule : Option String
  last_ingestion_at : Option Nat

/-- Embedding of `should_sync(stream, now)` from maintenance_tasks.py. -/
def should_sync (s : SchedStream) (now : Nat) : Bool :=
  match s.cron_schedule with
  | none => false
  | some expr =>
    match s.last_ingestion_at with
    | none => true
    | some last =>
      match cron_next expr last with
      | none => false
      | some next_run => next_run ≤ now

/-! ## sync_stream success/failure state transition
(sources/base/scheduler/tasks/sync_sources.py lines 218-328) -/

/-- The columns of the `streams` row that `sync_stream` may update. -/
structure StreamsRow where
  sync_cursor : Option String
  last_sync_at : Option Nat
  last_sync_status : Option String
deriving DecidableEq, Repr

/-- The columns of the `stream_configs` row that `sync_stream` may update
(`last_ingestion_at` is the stream's last-successful-ingestion
timestamp). -/
structure StreamConfigsRow where
  last_ingestion_at : Option Nat
deriving DecidableEq, Repr

/-- The `pipeline_activities` row opened by the task. -/
structure ActivityRow where
  status : String
  completed_at : Option Nat
  records_processed : Option Nat
  error_message : Option (List Char)
deriving DecidableEq, Repr

/-- Database state visible to one `sync_stream` execution. -/
structure TaskState where
  streamRow : StreamsRow
  configRow : StreamConfigsRow
  activity : ActivityRow
deriving DecidableEq, Repr

/-- The fields of the stats dict returned by `BaseSync.run()` that
`sync_stream` consumes. -/
structure SyncStats where
  next_sync_token : Option String
  records_processed : Nat
deriving DecidableEq, Repr

/-- Result of `sync.run()`: normal return or raised exception (carrying
the formatted error message). -/
inductive RunOutcome where
  | ok (stats : SyncStats)
  | error (error_message : List Char)

/-- The inner try/except of `sync_stream` after the activity was opened:
on success it updates `stream_configs.last_ingestion_at`, conditionally
`streams.sync_cursor`, and closes the activity `completed`; on exception
it only closes the activity `failed` (truncated message) and computes
the retry decision.  `hasInstance` models `stream.get("stream_instance_id")`
being truthy; `retries` is `self.request.retries`. -/
def sync_stream_after_run (st : TaskState) (hasInstance : Bool)
    (outcome : RunOutcome) (now : Nat) (retries : Nat) :
    TaskState × Option RetryDecision :=
  match outcome with
  | .ok stats =>
    let config := StreamConfigsRow.mk (some now)
    let streamRow :=
      if stats.next_sync_token.isSome ∧ hasInstance then
        StreamsRow.mk stats.next_sync_token (some now) (some "success")
      else
        st.streamRow
    let activity := ActivityRow.mk "completed" (some now)
        (some stats.records_processed) st.activity.error_message
    (TaskState.mk streamRow config activity, none)
  | .error msg =>
    let activity := ActivityRow.mk "failed" (some now)
        st.activity.records_processed (some (msg.take 1000))
    (TaskState.mk st.streamRow st.configRow activity,
     some (retry_decision msg retries))

/-! ## Sync-token merge (google/calendar/sync.py lines 226-273 and the
cursor persistence in sync_stream lines 233-250)

Python dicts (the per-calendar sync-token maps) are modelled as
association lists with the first binding of a key authoritative for
lookup; keys of a real dict are unique. -/

/-- First-match association lookup. -/
def assocFind (k : String) : List (String × String) → Option String
  | [] => none
  | (k2, v) :: rest => if k2 == k then some v else assocFind k rest

/-- Python `all_sync_tokens = existing_sync_tokens.copy();
all_sync_tokens.update(calendar_sync_tokens)`: existing keys keep their
position but take the new value when present in `newTokens`; keys only
in `newTokens` are appended. -/
def pyDictUpdate (old newTokens : List (String × String)) :
    List (String × String) :=
  old.map (fun e =>
    match assocFind e.1 newTokens with
    | some v => (e.1, v)
    | none => e) ++
  newTokens.filter (fun e => (assocFind e.1 old).isNone)

/-- End-to-end cursor persistence: `_run_sync` returns
`json.dumps(all_sync_tokens) if all_sync_tokens else None` as
`next_sync_token`, and `sync_stream` overwrites `streams.sync_cursor`
with it only when it is truthy.  At map level: the persisted cursor map
is the merge when the merge is non-empty, else the prior map stays. -/
def persisted_cursor (prior newTokens : List (String × String)) :
    List (String × String) :=
  let merged := pyDictUpdate prior newTokens
  if merged.isEmpty then prior else merged

/-! ## Device tokens (sources/base/auth/device_token.py)

Strings are modelled as byte lists (`List Nat`, UTF-8).  The HMAC-SHA256
of `_create_signature` is an arbitrary function `sigFn` (the claims do
not depend on its definition, only on it being deterministically
recomputed); `hmac.compare_digest` is equality.  Byte 46 is the ASCII
dot, 58 the colon, 61 the equals sign. -/

/-- base64url alphabet: index 0-63 to ASCII code. -/
def b64Char (n : Nat) : Nat :=
  if n < 26 then 65 + n
  else if n < 52 then 97 + (n - 26)
  else if n < 62 then 48 + (n - 52)
  else if n = 62 then 45
  else 95

/-- base64url alphabet inverse; `none` for a byte outside the alphabet. -/
def b64CharDec (c : Nat) : Option Nat :=
  if 65 ≤ c ∧ c ≤ 90 then some (c - 65)
  else if 97 ≤ c ∧ c ≤ 122 then some (c - 97 + 26)
  else if 48 ≤ c ∧ c ≤ 57 then some (c - 48 + 52)
  else if c = 45 then some 62
  else if c = 95 then some 63
  else none

/-- Embedding of `base64.urlsafe_b64encode(payload).rstrip('=')`: 3 bytes to 4 chars,
trailing group of 1 / 2 bytes to 2 / 3 chars (padding already
stripped, as `_sign_payload` does). -/
def b64encode : List Nat → List Nat
  | [] => []
  | [a] => [b64Char (a / 4), b64Char (a % 4 * 16)]
  | [a, b] => [b64Char (a / 4), b64Char (a % 4 * 16 + b / 16),
               b64Char (b % 16 * 4)]
  | a :: b :: c :: rest =>
      b64Char (a / 4) :: b64Char (a % 4 * 16 + b / 16) ::
      b64Char (b % 16 * 4 + c / 64) :: b64Char (c % 64) :: b64encode rest

/-- Embedding of `base64.urlsafe_b64decode(payload + '=' * (4 - len(payload) % 4))`:
Python's non-strict decoder processes the data characters in groups of
four and ignores the appended padding; a leftover group of one data
character raises `binascii.Error` (modelled as `none`), which
`validate_device_token` catches and turns into `False`. -/
def b64decode : List Nat → Option (List Nat)
  | [] => some []
  | [_] => none
  | [x, y] => do
      let a ← b64CharDec x
      let b ← b64CharDec y
      pure [a * 4 + b / 16]
  | [x, y, z] => do
      let a ← b64CharDec x
      let b ← b64CharDec y
      let c ← b64CharDec z
      pure [a * 4 + b / 16, b % 16 * 16 + c / 4]
  | x :: y :: z :: w :: rest => do
      let a ← b64CharDec x
      let b ← b64CharDec y
      let c ← b64CharDec z
      let d ← b64CharDec w
      let tail ← b64decode rest
      pure ((a * 4 + b / 16) :: (b % 16 * 16 + c / 4) :: (c % 4 * 64 + d) :: tail)

/-- Python `str.split(sep)` for a single-byte separator (no maxsplit):
`"".split(sep) == [""]`, separators delimit possibly-empty parts. -/
def pySplit (sep : Nat) : List Nat → List (List Nat)
  | [] => [[]]
  | c :: rest =>
    match pySplit sep rest with
    | [] => [[]]
    | h :: t => if c = sep then [] :: h :: t else (c :: h) :: t

/-- ASCII dot. -/
def dotByte : Nat := 46

/-- ASCII colon. -/
def colonByte : Nat := 58

/-- Embedding of `DeviceTokenHandler._sign_payload`: base64url-encode the payload
(padding stripped) and append `.` and the signature of the encoded
payload. -/
def sign_payload (sigFn : List Nat → List Nat) (payload : List Nat) :
    List Nat :=
  let encoded := b64encode payload
  encoded ++ dotByte :: sigFn encoded

/-- The byte string `"refresh"`. -/
def refreshBytes : List Nat := [114, 101, 102, 114, 101, 115, 104]

/-- Result of `DeviceTokenHandler.generate_device_token` (the fields the
claims are about).  `timestamp` models `datetime.utcnow().isoformat()`
and `nonce` models `secrets.token_hex(16)`, both passed explicitly. -/
structure DeviceTokenData where
  device_id : List Nat
  device_type : List Nat
  user_id : List Nat
  token : List Nat
  refresh_token : List Nat
deriving DecidableEq, Repr

/-- Embedding of `generate_device_token`: payload
`f"{device_id}:{device_type}:{user_id}:{timestamp}"`, refresh payload
`f"refresh:{payload}:{nonce}"`, both signed. -/
def generate_device_token (sigFn : List Nat → List Nat)
    (device_id device_type user_id timestamp nonce : List Nat) :
    DeviceTokenData :=
  let payload :=
    device_id ++ colonByte :: device_type ++ colonByte :: user_id ++
    colonByte :: timestamp
  let refresh_payload :=
    refreshBytes ++ colonByte :: payload ++ colonByte :: nonce
  DeviceTokenData.mk device_id device_type user_id
    (sign_payload sigFn payload) (sign_payload sigFn refresh_payload)

/-- Embedding of `validate_device_token(token, device_id)`: split on `.` into exactly
two parts, recompute the signature of the first part, compare, decode
the payload, and compare its first `:`-segment with the expected device
id. -/
def validate_device_token (sigFn : List Nat → List Nat)
    (token devId : List Nat) : Bool :=
  match pySplit dotByte token with
  | [payload, signature] =>
    if signature ≠ sigFn payload then false
    else
      match b64decode payload with
      | none => false
      | some decoded =>
        decide ((pySplit colonByte decoded).headI = devId)
  | _ => false

/-- Embedding of `refresh_device_token(refresh_token, device_id)`: validate the
refresh token against `device_id`, re-decode its payload, and issue a
new token from payload segments 1-3; any failure yields `None`
(segment 3 missing raises `IndexError`, caught).  The fresh timestamp
and nonce of the new token are passed explicitly. -/
def refresh_device_token (sigFn : List Nat → List Nat)
    (refresh_token devId timestamp nonce : List Nat) :
    Option DeviceTokenData :=
  if ¬ validate_device_token sigFn refresh_token devId then none
  else
    match pySplit dotByte refresh_token with
    | [payload, _] =>
      match b64decode payload with
      | none => none
      | some decoded =>
        let parts := pySplit colonByte decoded
        if parts.length < 3 then none
        else
          match parts with
          | _ :: p1 :: p2 :: p3 :: _ =>
            some (generate_device_token sigFn p1 p2 p3 timestamp nonce)
          | _ => none
    | _ => none

/-- A concrete stand-in signature function (used for closed
evaluations): constant, and free of the dot byte, like the hex digest
an HMAC produces. -/
def exampleSig (_ : List Nat) : List Nat := [97, 98]

/-! ## Pairing sessions (device_token.py lines 198-254)

`create_pairing_session` stamps the session with `expires_at =
created_at + ttl_seconds` and `status = 'pending'`; the store that
enforces the TTL and single use at completion time is not part of the
sources tree (only the session fields and the token issuance are), so
the completion guard is modelled from the spec. -/

/-- The pairing session record built by `create_pairing_session`. -/
structure PairingSession where
  session_id : String
  pairing_code : String
  created_at : Nat
  expires_at : Nat
  status : String
deriving DecidableEq, Repr

/-- Embedding of `create_pairing_session(pairing_code, device_info, ttl_seconds=300)`. -/
def create_pairing_session (session_id pairing_code : String)
    (now ttl_seconds : Nat) : PairingSession :=
  PairingSession.mk session_id pairing_code now (now + ttl_seconds) "pending"

/-- Modelled from the spec: the pairing-session store consulted at
completion time is missing from the sources tree.  Per the spec
("a session with TTL (default 300s) and single-use completion;
completion issues a fresh device token pair"), completion succeeds only
for a `pending` session whose TTL has not elapsed; on success the
session becomes `completed` and a fresh token pair is issued via the
real `generate_device_token`. -/
def complete_pairing_checked (sigFn : List Nat → List Nat)
    (sess : PairingSession) (now : Nat)
    (device_id device_type user_id timestamp nonce : List Nat) :
    Option (DeviceTokenData × PairingSession) :=
  if sess.status == "pending" ∧ now ≤ sess.expires_at then
    some (generate_device_token sigFn device_id device_type user_id
            timestamp nonce,
          PairingSession.mk sess.session_id sess.pairing_code
            sess.created_at sess.expires_at "completed")
  else
    none

/-! ## Hybrid storage batch processing
(StreamProcessor.process_batch, sources/base/processors/base.py lines 181-275)

A processed record (a Python dict) is an association list of field name
to optional value; values are opaque (`V`), with `vlen` giving
`len(binary_data)` for the `file_size` placeholder.  A persisted row
holds either a raw field value, the `file_size` placeholder, or a
`minio_path` object-store reference. -/

/-- A value stored in a relational row. -/
inductive RowVal (V : Type) where
  | val (v : Option V)
  | size (n : Nat)
  | path (p : String)
deriving DecidableEq, Repr

/-- Python dict assignment `d[k] = v`: update in place if the key is
present, else append. -/
def dictInsert {α : Type} : List (String × α) → String → α → List (String × α)
  | [], k, v => [(k, v)]
  | (k2, v2) :: rest, k, v =>
    if k2 == k then (k2, v) :: rest else (k2, v2) :: dictInsert rest k v

/-- First-match association lookup (generic). -/
def rowFind {α : Type} (k : String) : List (String × α) → Option α
  | [] => none
  | (k2, v) :: rest => if k2 == k then some v else rowFind k rest

/-- One iteration of the inner `for field_name, value in
processed_data.items()` loop: an object-store-bound field with a
non-null value schedules an upload of that value and stores only the
`file_size` placeholder; every other field is kept in the relational
record. -/
def prep_step {V : Type} (minioFields : List String) (vlen : V → Nat)
    (acc : List (String × RowVal V) × List V) (e : String × Option V) :
    List (String × RowVal V) × List V :=
  match e.2 with
  | some v =>
    if minioFields.contains e.1 then
      (dictInsert acc.1 "file_size" (RowVal.size (vlen v)), acc.2 ++ [v])
    else
      (dictInsert acc.1 e.1 (RowVal.val e.2), acc.2)
  | none => (dictInsert acc.1 e.1 (RowVal.val e.2), acc.2)

/-- The per-record field split: relational record plus scheduled upload
values, in field order. -/
def prep_record {V : Type} (minioFields : List String) (vlen : V → Nat)
    (rec : List (String × Option V)) :
    List (String × RowVal V) × List V :=
  rec.foldl (prep_step minioFields vlen) ([], [])

/-- Derived view of `prep_record`'s upload schedule: the values of the
object-store-bound fields of a record that are non-null, in field
order. -/
def minioValues {V : Type} (minioFields : List String)
    (rec : List (String × Option V)) : List V :=
  rec.filterMap (fun e =>
    match e.2 with
    | some v => if minioFields.contains e.1 then some v else none
    | none => none)

/-- The task list construction (`minio_tasks` / `record_indices` built by
`for idx, ... in enumerate(processed_models)`), tagging each scheduled
upload value with its record index. -/
def enum_minio_tasks {V α : Type} (k : Nat) :
    List (α × List V) → List (Nat × V)
  | [] => []
  | p :: rest => p.2.map (fun v => (k, v)) ++ enum_minio_tasks (k + 1) rest

/-- The result loop `for idx, result in zip(record_indices, minio_results)`:
a successful upload writes `records_for_db[idx]['minio_path'] = result`,
a failed one (an returned exception) is skipped. -/
def apply_minio_results {V : Type}
    (updates : List (Nat × Except String String))
    (rows : List (List (String × RowVal V))) :
    List (List (String × RowVal V)) :=
  updates.foldl (fun rs u =>
    match u.2 with
    | .ok p => rs.set u.1 (dictInsert (rs.getD u.1 []) "minio_path" (RowVal.path p))
    | .error _ => rs) rows

/-- The rows `process_batch` hands to `_bulk_insert` when `minio_fields`
is non-empty: split every record, run the uploads (outcome function
`upload`, indexed by record and value; a raised exception is an
`Except.error`), then attach `minio_path` references for the successful
uploads only. -/
def process_batch_rows {V : Type} (minioFields : List String)
    (vlen : V → Nat) (records : List (List (String × Option V)))
    (upload : Nat → V → Except String String) :
    List (List (String × RowVal V)) :=
  let preps := records.map (prep_record minioFields vlen)
  let tasks := enum_minio_tasks 0 preps
  let results := tasks.map (fun t => (t.1, upload t.1 t.2))
  apply_minio_results results (preps.map Prod.fst)

/-- The upload results that target record `i`, in task order (derived
view of the `zip(record_indices, minio_results)` loop). -/
def record_updates (i : Nat)
    (updates : List (Nat × Except String String)) :
    List (Except String String) :=
  updates.filterMap (fun u => if u.1 = i then some u.2 else none)

/-- Replaying one record's own upload results onto its relational row:
each success sets `minio_path`, each failure is skipped. -/
def apply_record_updates {V : Type} (row : List (String × RowVal V)) :
    List (Except String String) → List (String × RowVal V)
  | [] => row
  | .ok p :: rest =>
    apply_record_updates (dictInsert row "minio_path" (RowVal.path p)) rest
  | .error _ :: rest => apply_record_updates row rest

/-! ## Reactive token refresh
(BaseAPIClient._execute_request, sources/base/clients/base.py lines 158-219)

The sequence of HTTP statuses the server answers with is a script
(`List Nat`), one entry consumed per physical request; an empty script
means no response (`status = none`).  The token refresher is
`none` when not configured, `some none` when it raises or returns a
falsy token, `some (some t)` when it returns token `t`.  The trace
records the access token used by each physical request and the number
of refresher invocations. -/

/-- Constant `RETRY_STATUS_CODES` of the base client: 429, 500, 502, 503, 504. -/
def retry_status_codes : List Nat := [429, 500, 502, 503, 504]

/-- Constant `MAX_RETRIES = 3` of the base client. -/
def client_max_retries : Nat := 3

/-- Observable behaviour of one `_execute_request` call tree. -/
structure RequestTrace where
  status : Option Nat
  requests : List String
  refreshes : Nat
deriving DecidableEq, Repr

/-- Embedding of `_execute_request(method, url, retry_on_401, retry_count)`: make the
request with the current token; on a 401 with `retry_on_401` and a
configured refresher, invoke the refresher once and (if it yielded a
token) retry once with `retry_on_401=False`; on a retryable status
below the retry cap, back off and retry; otherwise surface the
response. -/
def execute_request (refresher : Option (Option String)) :
    List Nat → Bool → Nat → String → RequestTrace
  | [], _, _, tok => RequestTrace.mk none [tok] 0
  | status :: rest, retryOn401, retryCount, tok =>
    if status == 401 && retryOn401 && refresher.isSome then
      match refresher.join with
      | some newTok =>
        let r := execute_request refresher rest false 0 newTok
        RequestTrace.mk r.status (tok :: r.requests) (r.refreshes + 1)
      | none => RequestTrace.mk (some status) [tok] 1
    else if retry_status_codes.contains status && decide (retryCount < client_max_retries) then
      let r := execute_request refresher rest retryOn401 (retryCount + 1) tok
      RequestTrace.mk r.status (tok :: r.requests) r.refreshes
    else
      RequestTrace.mk (some status) [tok] 0

/-! ## Theorems -/

/-- C1: if `BaseSync.run()` raises, `sync_stream` leaves the `streams`
row (sync cursor included) and the `stream_configs` row
(last-successful-ingestion timestamp) unchanged and only closes the
pipeline activity as `failed`; the cursor and timestamp are written only
on the path that closes the activity `completed`. -/
theorem sync_stream_failure_preserves_state :
    (∀ st hasInstance msg now retries,
      (sync_stream_after_run st hasInstance (.error msg) now retries).1.streamRow
          = st.streamRow ∧
      (sync_stream_after_run st hasInstance (.error msg) now retries).1.configRow
          = st.configRow ∧
      (sync_stream_after_run st hasInstance (.error msg) now retries).1.activity.status
          = "failed") ∧
    (∀ st hasInstance stats now retries,
      (sync_stream_after_run st hasInstance (.ok stats) now retries).1.activity.status
          = "completed") :=
  ⟨fun _ _ _ _ _ => ⟨rfl, rfl, rfl⟩, fun _ _ _ _ _ => rfl⟩

/-- C2: with no last-successful-ingestion timestamp, `is_initial_sync`
is true and `get_sync_date_range` returns the configured limited window
(defaults 90 days past / 30 days future) for type `limited`, or the
connector's full range for type `full`; with a timestamp it returns the
connector's incremental range. -/
theorem get_sync_date_range_spec (s : SyncStream) (now : Int)
    (fullRange incRange : Option Int × Option Int) :
    (s.last_successful_ingestion_at = none → is_initial_sync s = true) ∧
    (s.last_successful_ingestion_at = none →
      s.initial_sync_type = some "limited" →
      get_sync_date_range s now fullRange incRange =
        (some (now - secondsPerDay * s.initial_sync_days.getD 90),
         some (now + secondsPerDay * s.initial_sync_days_future.getD 30))) ∧
    (s.last_successful_ingestion_at = none →
      s.initial_sync_type = some "limited" →
      s.initial_sync_days = none → s.initial_sync_days_future = none →
      get_sync_date_range s now fullRange incRange =
        (some (now - secondsPerDay * 90), some (now + secondsPerDay * 30))) ∧
    (s.last_successful_ingestion_at = none →
      s.initial_sync_type = some "full" →
      get_sync_date_range s now fullRange incRange = fullRange) ∧
    (∀ t, s.last_successful_ingestion_at = some t →
      get_sync_date_range s now fullRange incRange = incRange) := by
  refine ⟨fun h => ?_, fun h hty => ?_, fun h hty hd hdf => ?_,
          fun h hty => ?_, fun t h => ?_⟩
  · simp [is_initial_sync, h]
  · simp [get_sync_date_range, is_initial_sync, h, hty]
  · simp [get_sync_date_range, is_initial_sync, h, hty, hd, hdf]
  · simp [get_sync_date_range, is_initial_sync, h, hty]
  · simp [get_sync_date_range, is_initial_sync, h]

/-- C2 witness: the default limited window at a concrete input. -/
theorem get_sync_date_range_spec_witness :
    get_sync_date_range
        (SyncStream.mk none (some "limited") none none) 0
        (none, none) (none, none) =
      (some (0 - secondsPerDay * 90), some (0 + secondsPerDay * 30)) :=
  (get_sync_date_range_spec (SyncStream.mk none (some "limited") none none)
      0 (none, none) (none, none)).2.2.1 rfl rfl rfl rfl

/-- Helper for C3: the explicit except-block tail alone classifies a
terminal-marker message as not to be re-enqueued by it (the
classification the code comments intend), and gives every other
message the backoff `60 * 2^attempt` (60, 120, 240 seconds), a
strictly increasing sequence. -/
theorem retry_classification_spec :
    (∀ msg retries, (∃ m ∈ non_retryable_errors, hasSub m msg = true) →
      retry_decision msg retries = RetryDecision.reraise) ∧
    (∀ msg retries, (∀ m ∈ non_retryable_errors, hasSub m msg = false) →
      retries < sync_max_retries →
      retry_decision msg retries = RetryDecision.retry (60 * 2 ^ retries)) ∧
    (60 * 2 ^ 0 = 60 ∧ 60 * 2 ^ 1 = 120 ∧ 60 * 2 ^ 2 = 240) ∧
    (∀ i j : Nat, i < j → 60 * 2 ^ i < 60 * 2 ^ j) := by
  refine ⟨fun msg retries h => ?_, fun msg retries h hr => ?_,
          ⟨by norm_num, by norm_num, by norm_num⟩, fun i j hij => ?_⟩
  · obtain ⟨m, hm, hsub⟩ := h
    have : should_retry msg = false := by
      simp [should_retry, List.any_eq_true]
      exact ⟨m, hm, hsub⟩
    simp [retry_decision, this]
  · have : should_retry msg = true := by
      simp [should_retry, List.any_eq_true]
      intro m hm
      simpa using h m hm
    simp [retry_decision, this, hr]
  · have h2 : (2 : Nat) ^ i < 2 ^ j := Nat.pow_lt_pow_right (by norm_num) hij
    omega

/-- Helper instance of the tail classification at concrete messages: a
message containing `Unauthorized` is bare-raised by the except block, a
plain timeout at attempt 1 gets countdown 120 seconds. -/
theorem retry_classification_tail_example :
    retry_decision ("HTTPStatusError: 401 Unauthorized".toList) 1 =
        RetryDecision.reraise ∧
    retry_decision ("TimeoutError: timed out".toList) 1 =
        RetryDecision.retry (60 * 2 ^ 1) :=
  ⟨retry_classification_spec.1 _ 1
      ⟨"Unauthorized".toList, by decide, by decide⟩,
   retry_classification_spec.2.1 _ 1 (by decide) (by decide)⟩

/-- C3: the claim is what the except block's comments intend, but the
code defeats it: at the failing input — message
`AuthenticationError: invalid_grant`, first attempt (`retries = 0`,
attempts remaining) — the except block classifies the error as
terminal and bare-raises, yet the task's `autoretry_for=(Exception,)`
declaration makes Celery catch that re-raise and re-enqueue the task
with the default 180-second countdown; a non-terminal error keeps the
claimed `60 * 2^attempt` backoff, and a terminal error stops only once
attempts are exhausted. -/
theorem terminal_error_autoretried_bug :
    should_retry ("AuthenticationError: invalid_grant".toList) = false ∧
    retry_decision ("AuthenticationError: invalid_grant".toList) 0 =
      RetryDecision.reraise ∧
    0 < sync_max_retries ∧
    sync_stream_task_fate ("AuthenticationError: invalid_grant".toList) 0 =
      TaskFate.reenqueued celery_default_retry_delay ∧
    sync_stream_task_fate ("TimeoutError: timed out".toList) 1 =
      TaskFate.reenqueued (60 * 2 ^ 1) ∧
    sync_stream_task_fate ("AuthenticationError: invalid_grant".toList) 3 =
      TaskFate.failed := by
  decide

/-- C4 counterexample: the claim asserts `should_sync` at `T + 10min` is
false for every last-ingestion time `T`; at `T = 1200` (minute 20 of the
hour) the next `*/30` fire time is `T + 10min` itself, so `should_sync`
returns true. -/
theorem should_sync_ten_minute_counterexample :
    should_sync (SchedStream.mk (some "*/30 * * * *") (some 1200))
      (1200 + 10 * 60) = true := by decide

/-- C4 amended: with cron `*/30 * * * *` anchored at last ingestion `T`,
`should_sync` at `T + 31min` is always true, and at `T + 10min` it is
false exactly when `T` lies less than 20 minutes into its half-hour
block (in particular for `T` aligned on a 30-minute boundary); otherwise
it is true. -/
theorem should_sync_cron30_amended (T : Nat) :
    should_sync (SchedStream.mk (some "*/30 * * * *") (some T))
        (T + 31 * 60) = true ∧
    (T % 1800 < 1200 →
      should_sync (SchedStream.mk (some "*/30 * * * *") (some T))
        (T + 10 * 60) = false) ∧
    (1200 ≤ T % 1800 →
      should_sync (SchedStream.mk (some "*/30 * * * *") (some T))
        (T + 10 * 60) = true) := by
  refine ⟨?_, fun h => ?_, fun h => ?_⟩ <;>
    simp [should_sync, cron_next] <;> omega

/-- C4 witness for the amended claim at an aligned anchor `T = 0`. -/
theorem should_sync_cron30_amended_witness :
    should_sync (SchedStream.mk (some "*/30 * * * *") (some 0))
        (0 + 31 * 60) = true ∧
    should_sync (SchedStream.mk (some "*/30 * * * *") (some 0))
        (0 + 10 * 60) = false :=
  ⟨(should_sync_cron30_amended 0).1,
   (should_sync_cron30_amended 0).2.1 (by decide)⟩

/-- Helper for C9: once `retry_on_401` is false, the refresher is never
invoked again anywhere below. -/
theorem execute_request_refreshes_of_no401 (refresher : Option (Option String))
    (responses : List Nat) : ∀ retryCount tok,
    (execute_request refresher responses false retryCount tok).refreshes = 0 := by
  induction responses with
  | nil => intro retryCount tok; rfl
  | cons status rest ih =>
    intro retryCount tok
    simp only [execute_request, Bool.and_false, Bool.false_and,
               Bool.false_eq_true, if_false]
    split
    · exact ih (retryCount + 1) tok
    · rfl

/-- C9: the reactive refresh-retry logic never loops: every
`_execute_request` call tree invokes the token refresher at most once;
and on a 401 with a configured refresher the request is retried exactly
once with the new token, a second 401 being surfaced with no further
refresh or retry. -/
theorem reactive_refresh_spec :
    (∀ refresher responses retryOn401 retryCount tok,
      (execute_request refresher responses retryOn401 retryCount tok).refreshes
        ≤ 1) ∧
    (∀ rest tok newTok,
      execute_request (some (some newTok)) (401 :: 401 :: rest) true 0 tok =
        RequestTrace.mk (some 401) [tok, newTok] 1) := by
  constructor
  · intro refresher responses
    induction responses with
    | nil => intro retryOn401 retryCount tok; simp [execute_request]
    | cons status rest ih =>
      intro retryOn401 retryCount tok
      simp only [execute_request]
      split
      · split
        · simp [execute_request_refreshes_of_no401]
        · simp
      · split
        · exact ih retryOn401 (retryCount + 1) tok
        · simp
  · intro rest tok newTok
    simp [execute_request, retry_status_codes, client_max_retries]

/-- Helper for C5: `assocFind` distributes over append. -/
theorem assocFind_append (k : String) (xs ys : List (String × String)) :
    assocFind k (xs ++ ys) =
      match assocFind k xs with
      | some v => some v
      | none => assocFind k ys := by
  induction xs with
  | nil => simp [assocFind]
  | cons e rest ih =>
    by_cases h : e.1 == k
    · simp [assocFind, h]
    · simp [assocFind, h, ih]

/-- Helper for C5: lookup in the value-updated copy of `old`. -/
theorem assocFind_updated_old (old newTokens : List (String × String))
    (k : String) :
    assocFind k (old.map (fun e =>
        match assocFind e.1 newTokens with
        | some v => (e.1, v)
        | none => e)) =
      match assocFind k old with
      | none => none
      | some w =>
        match assocFind k newTokens with
        | some v => some v
        | none => some w := by
  induction old with
  | nil => simp [assocFind]
  | cons e rest ih =>
    rcases e with ⟨ek, ev⟩
    by_cases h : ek = k
    · subst h
      rcases hfind : assocFind ek newTokens with _ | v <;>
        simp [assocFind, hfind, ih]
    · rcases hfind : assocFind ek newTokens with _ | v <;>
        simp [assocFind, h, hfind, ih]

/-- Helper for C5: lookup in the filtered new entries when the key is
absent from `old`. -/
theorem assocFind_filtered_new (old newTokens : List (String × String))
    (k : String) (hk : assocFind k old = none) :
    assocFind k (newTokens.filter (fun e => (assocFind e.1 old).isNone)) =
      assocFind k newTokens := by
  induction newTokens with
  | nil => simp
  | cons e rest ih =>
    by_cases h : e.1 == k
    · have hek : e.1 = k := by simpa using h
      simp [List.filter, hek, hk, assocFind, ih]
    · rcases hmem : (assocFind e.1 old).isNone with _ | _ <;>
        simp [List.filter, hmem, assocFind, h, ih]

/-- Helper for C5: dict-update lookup semantics: a key present in the
new map takes the new value, every other key keeps its old value. -/
theorem assocFind_pyDictUpdate (old newTokens : List (String × String))
    (k : String) :
    assocFind k (pyDictUpdate old newTokens) =
      match assocFind k newTokens with
      | some v => some v
      | none => assocFind k old := by
  rw [pyDictUpdate, assocFind_append, assocFind_updated_old]
  rcases hold : assocFind k old with _ | w
  · rw [assocFind_filtered_new old newTokens k hold]
    rcases assocFind k newTokens with _ | v <;> simp
  · rcases assocFind k newTokens with _ | v <;> simp

/-- C5: the cursor persisted by a successful sync is the prior
per-calendar cursor map updated with the newly returned entries: keys
absent from the new result keep their previous values, keys present
take the new value — not a wholesale replacement. -/
theorem cursor_merge_spec (prior newTokens : List (String × String)) :
    (∀ k, assocFind k newTokens = none →
      assocFind k (persisted_cursor prior newTokens) = assocFind k prior) ∧
    (∀ k v, assocFind k newTokens = some v →
      assocFind k (persisted_cursor prior newTokens) = some v) := by
  constructor
  · intro k hk
    rw [persisted_cursor]
    split
    · rfl
    · rw [assocFind_pyDictUpdate, hk]
  · intro k v hk
    rw [persisted_cursor]
    split
    · next hempty =>
      exfalso
      have hnil : pyDictUpdate prior newTokens = [] :=
        List.isEmpty_iff.mp hempty
      have := assocFind_pyDictUpdate prior newTokens k
      rw [hnil, hk] at this
      simp [assocFind] at this
    · rw [assocFind_pyDictUpdate, hk]

/-- C5 witness: prior cursors for calendars `a`, `b`; the new result only
covers `b`, `c`: `a` keeps its old token, `b` and `c` take new ones. -/
theorem cursor_merge_spec_witness :
    assocFind "a" (persisted_cursor [("a", "1"), ("b", "2")]
        [("b", "3"), ("c", "4")]) = some "1" ∧
    assocFind "c" (persisted_cursor [("a", "1"), ("b", "2")]
        [("b", "3"), ("c", "4")]) = some "4" := by
  constructor
  · have h := (cursor_merge_spec [("a", "1"), ("b", "2")]
        [("b", "3"), ("c", "4")]).1 "a" (by decide)
    rw [h]; decide
  · exact (cursor_merge_spec [("a", "1"), ("b", "2")]
        [("b", "3"), ("c", "4")]).2 "c" "4" (by decide)

/-- C7: a pairing session with TTL 300 seconds is no longer completable
once more than 300 seconds have elapsed since creation, and a session
that was completed once can never be completed again. -/
theorem pairing_session_spec (sigFn : List Nat → List Nat) :
    (∀ sid code created now devId devTy uid ts nonce,
      created + 300 < now →
      complete_pairing_checked sigFn
        (create_pairing_session sid code created 300) now
        devId devTy uid ts nonce = none) ∧
    (∀ sess now1 r now2 devId devTy uid ts nonce devId2 devTy2 uid2 ts2 nonce2,
      complete_pairing_checked sigFn sess now1 devId devTy uid ts nonce = some r →
      complete_pairing_checked sigFn r.2 now2
        devId2 devTy2 uid2 ts2 nonce2 = none) := by
  constructor
  · intro sid code created now devId devTy uid ts nonce hlate
    rw [complete_pairing_checked]
    rw [if_neg]
    simp [create_pairing_session]
    omega
  · intro sess now1 r now2 devId devTy uid ts nonce devId2 devTy2 uid2 ts2 nonce2 h
    rw [complete_pairing_checked] at h
    split at h
    · have hr : r.2.status = "completed" := by
        cases h.symm
        rfl
      rw [complete_pairing_checked, if_neg]
      intro hc
      rw [hr] at hc
      exact absurd hc.1 (by decide)
    · exact absurd h (by simp)

/-- C7 witness: a session created at time 0 with TTL 300 cannot be
completed at time 301, and a session completed at time 10 cannot be
completed a second time. -/
theorem pairing_session_spec_witness :
    complete_pairing_checked (fun _ => []) 
        (create_pairing_session "s" "123456" 0 300) 301
        [100] [105] [117] [116] [110] = none ∧
    (∀ r, complete_pairing_checked (fun _ => [])
        (create_pairing_session "s" "123456" 0 300) 10
        [100] [105] [117] [116] [110] = some r →
      complete_pairing_checked (fun _ => []) r.2 20
        [100] [105] [117] [116] [110] = none) :=
  ⟨(pairing_session_spec (fun _ => [])).1 "s" "123456" 0 301
      [100] [105] [117] [116] [110] (by norm_num),
   fun r h => (pairing_session_spec (fun _ => [])).2
      (create_pairing_session "s" "123456" 0 300) 10 r 20
      [100] [105] [117] [116] [110] [100] [105] [117] [116] [110] h⟩

/-- Helper for C6/C10: decoding inverts the alphabet map. -/
theorem b64CharDec_b64Char : ∀ n < 64, b64CharDec (b64Char n) = some n := by
  decide

/-- Helper for C6/C10: no alphabet character is the dot byte. -/
theorem b64Char_ne_dot : ∀ n < 64, b64Char n ≠ 46 := by decide

/-- Helper for C6/C10: the encoded payload never contains the dot that
separates payload from signature. -/
theorem b64encode_no_dot (bs : List Nat) (h : ∀ x ∈ bs, x < 256) :
    dotByte ∉ b64encode bs := by
  induction bs using b64encode.induct with
  | case1 => simp [b64encode]
  | case2 a =>
    have ha : a < 256 := h a (by simp)
    simp only [b64encode, dotByte, List.mem_cons, List.not_mem_nil, or_false]
    push_neg
    exact ⟨(b64Char_ne_dot _ (by omega)).symm, (b64Char_ne_dot _ (by omega)).symm⟩
  | case3 a b =>
    have ha : a < 256 := h a (by simp)
    have hb : b < 256 := h b (by simp)
    simp only [b64encode, dotByte, List.mem_cons, List.not_mem_nil, or_false]
    push_neg
    exact ⟨(b64Char_ne_dot _ (by omega)).symm, (b64Char_ne_dot _ (by omega)).symm,
           (b64Char_ne_dot _ (by omega)).symm⟩
  | case4 a b c rest ih =>
    have ha : a < 256 := h a (by simp)
    have hb : b < 256 := h b (by simp)
    have hc : c < 256 := h c (by simp)
    have hrest : ∀ x ∈ rest, x < 256 := fun x hx => h x (by simp [hx])
    simp only [b64encode, dotByte, List.mem_cons]
    push_neg
    exact ⟨(b64Char_ne_dot _ (by omega)).symm, (b64Char_ne_dot _ (by omega)).symm,
           (b64Char_ne_dot _ (by omega)).symm, (b64Char_ne_dot _ (by omega)).symm,
           ih hrest⟩

/-- Helper for C6/C10: base64url decode inverts encode on byte lists. -/
theorem b64decode_b64encode (bs : List Nat) (h : ∀ x ∈ bs, x < 256) :
    b64decode (b64encode bs) = some bs := by
  induction bs using b64encode.induct with
  | case1 => rfl
  | case2 a =>
    have ha : a < 256 := h a (by simp)
    rw [b64encode, b64decode, b64CharDec_b64Char _ (by omega),
        b64CharDec_b64Char _ (by omega)]
    simp only [Option.bind_eq_bind, Option.some_bind, Option.pure_def,
               Option.some.injEq]
    have : a / 4 * 4 + a % 4 * 16 / 16 = a := by omega
    rw [this]
  | case3 a b =>
    have ha : a < 256 := h a (by simp)
    have hb : b < 256 := h b (by simp)
    rw [b64encode, b64decode, b64CharDec_b64Char _ (by omega),
        b64CharDec_b64Char _ (by omega), b64CharDec_b64Char _ (by omega)]
    simp only [Option.bind_eq_bind, Option.some_bind, Option.pure_def,
               Option.some.injEq]
    have h1 : a / 4 * 4 + (a % 4 * 16 + b / 16) / 16 = a := by omega
    have h2 : (a % 4 * 16 + b / 16) % 16 * 16 + b % 16 * 4 / 4 = b := by omega
    rw [h1, h2]
  | case4 a b c rest ih =>
    have ha : a < 256 := h a (by simp)
    have hb : b < 256 := h b (by simp)
    have hc : c < 256 := h c (by simp)
    have hrest : ∀ x ∈ rest, x < 256 := fun x hx => h x (by simp [hx])
    have henc : b64encode (a :: b :: c :: rest) =
        b64Char (a / 4) :: b64Char (a % 4 * 16 + b / 16) ::
        b64Char (b % 16 * 4 + c / 64) :: b64Char (c % 64) :: b64encode rest :=
      rfl
    rw [henc]
    simp only [b64decode]
    rw [b64CharDec_b64Char _ (by omega), b64CharDec_b64Char _ (by omega),
        b64CharDec_b64Char _ (by omega), b64CharDec_b64Char _ (by omega),
        ih hrest]
    simp only [Option.bind_eq_bind, Option.some_bind, Option.pure_def,
               Option.some.injEq]
    have h1 : a / 4 * 4 + (a % 4 * 16 + b / 16) / 16 = a := by omega
    have h2 : (a % 4 * 16 + b / 16) % 16 * 16 + (b % 16 * 4 + c / 64) / 4 = b := by
      omega
    have h3 : (b % 16 * 4 + c / 64) % 4 * 64 + c % 64 = c := by omega
    rw [h1, h2, h3]

/-- Helper for C6/C10: splitting a separator-free string is the identity. -/
theorem pySplit_of_not_mem (sep : Nat) (l : List Nat) (h : sep ∉ l) :
    pySplit sep l = [l] := by
  induction l with
  | nil => rfl
  | cons c rest ih =>
    have hc : c ≠ sep := fun hcs => h (by simp [hcs])
    have hrest : sep ∉ rest := fun hm => h (by simp [hm])
    rw [pySplit, ih hrest]
    simp [hc]

/-- Helper for C6/C10: the split of a byte list is never the empty list
of parts. -/
theorem pySplit_ne_nil (sep : Nat) (l : List Nat) : pySplit sep l ≠ [] := by
  induction l with
  | nil => simp [pySplit]
  | cons c rest ih =>
    rw [pySplit]
    rcases hr : pySplit sep rest with _ | ⟨h1, t1⟩
    · exact absurd hr ih
    · by_cases hc : c = sep <;> simp [hc]

/-- Helper for C6/C10: splitting peels off the part before the first
separator. -/
theorem pySplit_append_sep (sep : Nat) (a b : List Nat) (ha : sep ∉ a) :
    pySplit sep (a ++ sep :: b) = a :: pySplit sep b := by
  induction a with
  | nil =>
    rw [List.nil_append, pySplit]
    rcases hb : pySplit sep b with _ | ⟨h1, t1⟩
    · exact absurd hb (pySplit_ne_nil sep b)
    · simp
  | cons c rest ih =>
    have hc : c ≠ sep := fun hcs => ha (by simp [hcs])
    have hrest : sep ∉ rest := fun hm => ha (by simp [hm])
    rw [List.cons_append, pySplit, ih hrest]
    simp [hc]

/-- Helper for C6/C10: on a token produced by `_sign_payload` with the
same handler, validation reduces to comparing the first `:`-segment of
the payload with the expected device id. -/
theorem validate_sign_payload (sigFn : List Nat → List Nat)
    (hsig : ∀ p, dotByte ∉ sigFn p) (payload : List Nat)
    (h256 : ∀ x ∈ payload, x < 256) (devId : List Nat) :
    validate_device_token sigFn (sign_payload sigFn payload) devId =
      decide ((pySplit colonByte payload).headI = devId) := by
  have hnd : dotByte ∉ b64encode payload := b64encode_no_dot payload h256
  have hsplit : pySplit dotByte (sign_payload sigFn payload) =
      [b64encode payload, sigFn (b64encode payload)] := by
    rw [sign_payload, pySplit_append_sep _ _ _ hnd,
        pySplit_of_not_mem _ _ (hsig (b64encode payload))]
  rw [validate_device_token, hsplit]
  simp only [ne_eq, not_true_eq_false, if_false,
             b64decode_b64encode payload h256]

/-- C6 counterexample: the claim asserts that for every authenticated
`device_id` and every `other ≠ device_id`, `validate(token, other)` is
false; for `device_id = "a:b"` (bytes `[97, 58, 98]`) the issued token
also validates for device `"a"` (bytes `[97]`), because validation
compares only the first `:`-segment of the payload. -/
theorem validate_device_token_counterexample :
    validate_device_token exampleSig
        (generate_device_token exampleSig [97, 58, 98] [109] [117] [116]
          [110]).token [97] = true ∧
    ([97] : List Nat) ≠ [97, 58, 98] := by
  constructor
  · decide
  · decide

/-- C6 amended: for a device id free of the `:` separator byte (true of
the payload layout's intended inputs), the issued token validates for
that device id and for no other: `validate(token, device_id)` is true
and `validate(token, other)` is false for every `other ≠ device_id`. -/
theorem device_token_validation_amended (sigFn : List Nat → List Nat)
    (did dty uid ts nonce : List Nat)
    (hsig : ∀ p, dotByte ∉ sigFn p)
    (hdid : ∀ x ∈ did, x < 256) (hdty : ∀ x ∈ dty, x < 256)
    (huid : ∀ x ∈ uid, x < 256) (hts : ∀ x ∈ ts, x < 256)
    (hcolon : colonByte ∉ did) :
    validate_device_token sigFn
        (generate_device_token sigFn did dty uid ts nonce).token did
      = true ∧
    ∀ other, other ≠ did →
      validate_device_token sigFn
          (generate_device_token sigFn did dty uid ts nonce).token other
        = false := by
  have h256 : ∀ x ∈ did ++ colonByte ::
      (dty ++ colonByte :: (uid ++ colonByte :: ts)), x < 256 := by
    refine List.forall_mem_append.mpr ⟨hdid, ?_⟩
    refine List.forall_mem_cons.mpr ⟨by decide, ?_⟩
    refine List.forall_mem_append.mpr ⟨hdty, ?_⟩
    refine List.forall_mem_cons.mpr ⟨by decide, ?_⟩
    refine List.forall_mem_append.mpr ⟨huid, ?_⟩
    exact List.forall_mem_cons.mpr ⟨by decide, hts⟩
  have htok : (generate_device_token sigFn did dty uid ts nonce).token =
      sign_payload sigFn
        (did ++ colonByte :: (dty ++ colonByte :: (uid ++ colonByte :: ts))) := by
    simp [generate_device_token]
  have hhead : (pySplit colonByte (did ++ colonByte ::
      (dty ++ colonByte :: (uid ++ colonByte :: ts)))).headI = did := by
    rw [pySplit_append_sep _ _ _ hcolon]
    rfl
  constructor
  · rw [htok, validate_sign_payload sigFn hsig _ h256, hhead]
    simp
  · intro other hne
    rw [htok, validate_sign_payload sigFn hsig _ h256, hhead]
    exact decide_eq_false (fun h => hne h.symm)

/-- C6 witness for the amended claim at concrete byte strings. -/
theorem device_token_validation_amended_witness :
    validate_device_token exampleSig
        (generate_device_token exampleSig [100] [109] [117] [116]
          [110]).token [100] = true ∧
    validate_device_token exampleSig
        (generate_device_token exampleSig [100] [109] [117] [116]
          [110]).token [101] = false := by
  have hsig : ∀ p, dotByte ∉ exampleSig p := by
    intro p
    show dotByte ∉ [97, 98]
    decide
  have h := device_token_validation_amended exampleSig
    [100] [109] [117] [116] [110]
    hsig (by decide) (by decide) (by decide) (by decide) (by decide)
  exact ⟨h.1, h.2 [101] (by decide)⟩

/-- C10: the refresh payload starts with the literal `refresh` segment,
so `validate_device_token(refresh_token, device_id)` compares `refresh`
with the device id and `refresh_device_token` returns `None` for every
device id other than the literal byte string `refresh`: refresh can
never succeed through the public interface. -/
theorem refresh_token_never_validates (sigFn : List Nat → List Nat)
    (devId did dty uid ts nonce ts2 nonce2 : List Nat)
    (hsig : ∀ p, dotByte ∉ sigFn p)
    (hdid : ∀ x ∈ did, x < 256) (hdty : ∀ x ∈ dty, x < 256)
    (huid : ∀ x ∈ uid, x < 256) (hts : ∀ x ∈ ts, x < 256)
    (hnonce : ∀ x ∈ nonce, x < 256)
    (hne : devId ≠ refreshBytes) :
    refresh_device_token sigFn
        (generate_device_token sigFn did dty uid ts nonce).refresh_token
        devId ts2 nonce2 = none := by
  have hpay : ∀ x ∈ did ++ colonByte ::
      (dty ++ colonByte :: (uid ++ colonByte :: ts)), x < 256 := by
    refine List.forall_mem_append.mpr ⟨hdid, ?_⟩
    refine List.forall_mem_cons.mpr ⟨by decide, ?_⟩
    refine List.forall_mem_append.mpr ⟨hdty, ?_⟩
    refine List.forall_mem_cons.mpr ⟨by decide, ?_⟩
    refine List.forall_mem_append.mpr ⟨huid, ?_⟩
    exact List.forall_mem_cons.mpr ⟨by decide, hts⟩
  have h256 : ∀ x ∈ refreshBytes ++ colonByte ::
      ((did ++ colonByte :: (dty ++ colonByte :: (uid ++ colonByte :: ts)))
        ++ colonByte :: nonce), x < 256 := by
    refine List.forall_mem_append.mpr ⟨by decide, ?_⟩
    refine List.forall_mem_cons.mpr ⟨by decide, ?_⟩
    refine List.forall_mem_append.mpr ⟨hpay, ?_⟩
    exact List.forall_mem_cons.mpr ⟨by decide, hnonce⟩
  have hrtok :
      (generate_device_token sigFn did dty uid ts nonce).refresh_token =
        sign_payload sigFn (refreshBytes ++ colonByte ::
          ((did ++ colonByte :: (dty ++ colonByte :: (uid ++ colonByte :: ts)))
            ++ colonByte :: nonce)) := by
    simp [generate_device_token, refreshBytes]
  have hnc : colonByte ∉ refreshBytes := by decide
  have hhead : (pySplit colonByte (refreshBytes ++ colonByte ::
      ((did ++ colonByte :: (dty ++ colonByte :: (uid ++ colonByte :: ts)))
        ++ colonByte :: nonce))).headI = refreshBytes := by
    rw [pySplit_append_sep _ _ _ hnc]
    rfl
  have hval : validate_device_token sigFn
      (generate_device_token sigFn did dty uid ts nonce).refresh_token
      devId = false := by
    rw [hrtok, validate_sign_payload sigFn hsig _ h256, hhead]
    exact decide_eq_false (fun h => hne h.symm)
  rw [refresh_device_token, if_pos]
  rw [hval]
  simp

/-- C10 witness: refreshing with the device's own id yields `None`. -/
theorem refresh_token_never_validates_witness :
    refresh_device_token exampleSig
        (generate_device_token exampleSig [100] [109] [117] [116]
          [110]).refresh_token [100] [116] [111] = none :=
  refresh_token_never_validates exampleSig [100] [100] [109] [117] [116]
    [110] [116] [111]
    (fun p => show dotByte ∉ [97, 98] by decide) (by decide) (by decide)
    (by decide) (by decide) (by decide) (by decide)

/-- Helper for C8: dict assignment makes the key's value visible. -/
theorem rowFind_dictInsert_self {V : Type} (r : List (String × V))
    (k : String) (v : V) : rowFind k (dictInsert r k v) = some v := by
  induction r with
  | nil => simp [dictInsert, rowFind]
  | cons e rest ih =>
    rcases e with ⟨k2, v2⟩
    by_cases h : k2 = k
    · simp [dictInsert, h, rowFind]
    · simp [dictInsert, h, rowFind, ih]

/-- Helper for C8: dict assignment leaves other keys untouched. -/
theorem rowFind_dictInsert_ne {V : Type} (r : List (String × V))
    (k k2 : String) (v : V) (h : k2 ≠ k) :
    rowFind k2 (dictInsert r k v) = rowFind k2 r := by
  have hne : ¬ (k = k2) := fun heq => h heq.symm
  induction r with
  | nil => simp [dictInsert, rowFind, hne]
  | cons e rest ih =>
    rcases e with ⟨k3, v3⟩
    by_cases h3 : k3 = k
    · subst h3
      simp [dictInsert, rowFind, hne]
    · simp [dictInsert, h3, rowFind, ih]

/-- Helper for C8: the upload schedule the field loop accumulates is
exactly the record's non-null object-store-bound values, in order. -/
theorem prep_foldl_tasks {V : Type} (mf : List String) (vlen : V → Nat) :
    ∀ (rec : List (String × Option V)) (acc),
    (rec.foldl (prep_step mf vlen) acc).2 = acc.2 ++ minioValues mf rec := by
  intro rec
  induction rec with
  | nil => intro acc; simp [minioValues]
  | cons e rest ih =>
    intro acc
    rcases e with ⟨n, v⟩
    rcases v with _ | v
    · simp [List.foldl_cons, prep_step, ih, minioValues]
    · by_cases hmf : n ∈ mf
      · simp [List.foldl_cons, prep_step, hmf, ih, minioValues]
      · simp [List.foldl_cons, prep_step, hmf, ih, minioValues]

/-- Helper for C8 (instance of the above at the empty accumulator). -/
theorem prep_record_tasks {V : Type} (mf : List String) (vlen : V → Nat)
    (rec : List (String × Option V)) :
    (prep_record mf vlen rec).2 = minioValues mf rec := by
  simpa [prep_record] using prep_foldl_tasks mf vlen rec ([], [])

/-- Helper for C8: a name that is not a key of the remaining fields and
is not the `file_size` placeholder is not touched by the field loop. -/
theorem prep_foldl_find_absent {V : Type} (mf : List String) (vlen : V → Nat)
    (name : String) (hfs : name ≠ "file_size") :
    ∀ (rec : List (String × Option V)) (acc),
    name ∉ rec.map Prod.fst →
    rowFind name (rec.foldl (prep_step mf vlen) acc).1 = rowFind name acc.1 := by
  intro rec
  induction rec with
  | nil => intro acc _; rfl
  | cons e rest ih =>
    intro acc hmem
    rcases e with ⟨n, v⟩
    simp only [List.map_cons, List.mem_cons] at hmem
    push_neg at hmem
    have hn : name ≠ n := hmem.1
    have hrest : name ∉ rest.map Prod.fst := hmem.2
    have hstep : rowFind name (prep_step mf vlen acc (n, v)).1 =
        rowFind name acc.1 := by
      rcases v with _ | v
      · simpa [prep_step] using rowFind_dictInsert_ne acc.1 n name _ hn
      · by_cases hmf : n ∈ mf
        · simpa [prep_step, hmf] using
            rowFind_dictInsert_ne acc.1 "file_size" name _ hfs
        · simpa [prep_step, hmf] using
            rowFind_dictInsert_ne acc.1 n name _ hn
    rw [List.foldl_cons, ih (prep_step mf vlen acc (n, v)) hrest, hstep]

/-- Helper for C8: a non-object-store field of a record with unique keys
survives the field loop with its value intact. -/
theorem prep_foldl_find_mem {V : Type} (mf : List String) (vlen : V → Nat) :
    ∀ (rec : List (String × Option V)) (acc) (name : String) (val : Option V),
    (name, val) ∈ rec → name ∉ mf → name ≠ "file_size" →
    (rec.map Prod.fst).Nodup →
    rowFind name (rec.foldl (prep_step mf vlen) acc).1 =
      some (RowVal.val val) := by
  intro rec
  induction rec with
  | nil => intro acc name val hmem; simp at hmem
  | cons e rest ih =>
    intro acc name val hmem hmf hfs hnodup
    rcases e with ⟨n, v⟩
    simp only [List.map_cons, List.nodup_cons] at hnodup
    rcases List.mem_cons.mp hmem with heq | hmem2
    · have hn : name = n := (Prod.ext_iff.mp heq).1
      have hv : val = v := (Prod.ext_iff.mp heq).2
      subst hn
      subst hv
      have hrest : name ∉ rest.map Prod.fst := hnodup.1
      have hstep : (prep_step mf vlen acc (name, val)).1 =
          dictInsert acc.1 name (RowVal.val val) := by
        rcases val with _ | v
        · rfl
        · simp [prep_step, hmf]
      rw [List.foldl_cons,
          prep_foldl_find_absent mf vlen name hfs rest _ hrest, hstep,
          rowFind_dictInsert_self]
    · exact ih _ name val hmem2 hmf hfs hnodup.2

/-- Helper for C8: the field loop never writes a `minio_path` reference
itself (when the raw record has no such field). -/
theorem prep_record_no_mp {V : Type} (mf : List String) (vlen : V → Nat)
    (rec : List (String × Option V))
    (hmp : "minio_path" ∉ rec.map Prod.fst) :
    rowFind "minio_path" (prep_record mf vlen rec).1 = none := by
  have h := prep_foldl_find_absent mf vlen "minio_path" (by decide) rec
    ([], []) hmp
  simpa [prep_record, rowFind] using h

/-- Helper for C8: `record_updates` distributes over append. -/
theorem record_updates_append (i : Nat)
    (a b : List (Nat × Except String String)) :
    record_updates i (a ++ b) = record_updates i a ++ record_updates i b := by
  simp [record_updates]

/-- Helper for C8: results all tagged with the record's own index are
kept verbatim. -/
theorem record_updates_own (i : Nat)
    (results : List (Except String String)) :
    record_updates i (results.map (fun r => (i, r))) = results := by
  induction results with
  | nil => rfl
  | cons r rest ih =>
    simp only [List.map_cons, record_updates, List.filterMap_cons] at ih ⊢
    simpa using ih

/-- Helper for C8: every task index produced from position `k` onwards
is at least `k`. -/
theorem enum_minio_tasks_le {V α : Type} :
    ∀ (l : List (α × List V)) (k : Nat) (x : Nat × V),
    x ∈ enum_minio_tasks k l → k ≤ x.1 := by
  intro l
  induction l with
  | nil => intro k x hx; simp [enum_minio_tasks] at hx
  | cons p rest ih =>
    intro k x hx
    rw [enum_minio_tasks] at hx
    rcases List.mem_append.mp hx with h | h
    · rcases List.mem_map.mp h with ⟨v, _, rfl⟩
      simp
    · exact Nat.le_of_succ_le (ih (k + 1) x h)

/-- Helper for C8: the upload results that target record `i` are exactly
the uploads of record `i`'s own scheduled values, in order. -/
theorem record_updates_enum {V α : Type}
    (upload : Nat → V → Except String String) :
    ∀ (preps : List (α × List V)) (k i : Nat), k ≤ i →
    record_updates i ((enum_minio_tasks k preps).map
        (fun t => (t.1, upload t.1 t.2))) =
      (match preps.get? (i - k) with
       | some p => p.2.map (fun v => upload i v)
       | none => []) := by
  intro preps
  induction preps with
  | nil => intro k i _; simp [enum_minio_tasks, record_updates]
  | cons p rest ih =>
    intro k i hki
    rw [enum_minio_tasks, List.map_append, record_updates_append]
    by_cases hk : k = i
    · subst hk
      have hcomp : (p.2.map (fun v => (k, v))).map
          (fun t => (t.1, upload t.1 t.2)) =
          (p.2.map (fun v => upload k v)).map (fun r => (k, r)) := by
        simp only [List.map_map]
        rfl
      have h2 : record_updates k ((enum_minio_tasks (k + 1) rest).map
          (fun t => (t.1, upload t.1 t.2))) = [] := by
        rw [record_updates, List.filterMap_eq_nil_iff]
        intro u hu
        rcases List.mem_map.mp hu with ⟨t, ht, rfl⟩
        have hle := enum_minio_tasks_le rest (k + 1) t ht
        simp only
        rw [if_neg]
        omega
      rw [hcomp, record_updates_own, h2, List.append_nil, Nat.sub_self]
      rfl
    · have hklt : k < i := lt_of_le_of_ne hki hk
      have h1 : record_updates i ((p.2.map (fun v => (k, v))).map
          (fun t => (t.1, upload t.1 t.2))) = [] := by
        rw [record_updates, List.filterMap_eq_nil_iff]
        intro u hu
        rcases List.mem_map.mp hu with ⟨t, ht, rfl⟩
        rcases List.mem_map.mp ht with ⟨v, _, rfl⟩
        simp only
        rw [if_neg]
        omega
      rw [h1, List.nil_append, ih (k + 1) i (by omega)]
      have hidx : i - k = (i - (k + 1)) + 1 := by omega
      rw [hidx]
      rfl

/-- Helper for C8: the result loop acts on each row independently,
replaying exactly the results tagged with that row's record index. -/
theorem apply_minio_results_get {V : Type} :
    ∀ (updates : List (Nat × Except String String))
      (rows : List (List (String × RowVal V))) (i : Nat),
    (apply_minio_results updates rows).get? i =
      (rows.get? i).map
        (fun r => apply_record_updates r (record_updates i updates)) := by
  intro updates
  induction updates with
  | nil =>
    intro rows i
    simp [apply_minio_results, record_updates, apply_record_updates]
  | cons u us ih =>
    intro rows i
    rcases u with ⟨j, res⟩
    cases res with
    | error e =>
      have hstep : apply_minio_results ((j, Except.error e) :: us) rows =
          apply_minio_results us rows := rfl
      rw [hstep, ih]
      by_cases hj : j = i
      · subst hj
        simp [record_updates, apply_record_updates]
      · simp [record_updates, hj]
    | ok p =>
      have hstep : apply_minio_results ((j, Except.ok p) :: us) rows =
          apply_minio_results us
            (rows.set j (dictInsert (rows.getD j []) "minio_path"
              (RowVal.path p))) := rfl
      rw [hstep, ih]
      by_cases hj : j = i
      · subst hj
        rcases hrow : rows.get? j with _ | r
        · have hlen : rows.length ≤ j := List.get?_eq_none.mp hrow
          have hsetnone : (rows.set j (dictInsert (rows.getD j [])
              "minio_path" (RowVal.path p))).get? j = none := by
            rw [List.get?_eq_none, List.length_set]
            exact hlen
          simp only [hsetnone, hrow, Option.map_none]
          simp [hlen]
        · have hgetD : rows.getD j [] = r := by
            rw [List.getD_eq_getElem?_getD, ← List.get?_eq_getElem?, hrow]
            rfl
          have hset : (rows.set j (dictInsert r "minio_path"
              (RowVal.path p))).get? j =
              some (dictInsert r "minio_path" (RowVal.path p)) := by
            rw [List.get?_set_eq, hrow]
            rfl
          rw [hgetD, hset]
          simp [hrow, record_updates, apply_record_updates]
      · rw [List.get?_set_ne _ rows hj]
        simp [record_updates, hj]

/-- Helper for C8: if every upload of a record failed, its row is left
exactly as the field split produced it. -/
theorem apply_record_updates_all_error {V : Type} :
    ∀ (results : List (Except String String))
      (row : List (String × RowVal V)),
    (∀ r ∈ results, ∃ e, r = Except.error e) →
    apply_record_updates row results = row := by
  intro results
  induction results with
  | nil => intro row _; rfl
  | cons r rest ih =>
    intro row h
    rcases h r (by simp) with ⟨e, rfl⟩
    rw [apply_record_updates]
    exact ih row (fun r hr => h r (by simp [hr]))

/-- Helper for C8: the row persisted for any record is its field split
with that record's own upload results replayed onto it. -/
theorem process_batch_rows_get {V : Type} (mf : List String)
    (vlen : V → Nat) (records : List (List (String × Option V)))
    (upload : Nat → V → Except String String) (j : Nat)
    (recj : List (String × Option V)) (hj : records.get? j = some recj) :
    (process_batch_rows mf vlen records upload).get? j =
      some (apply_record_updates (prep_record mf vlen recj).1
        ((minioValues mf recj).map (fun v => upload j v))) := by
  have hunfold : process_batch_rows mf vlen records upload =
      apply_minio_results
        ((enum_minio_tasks 0 (records.map (prep_record mf vlen))).map
          (fun t => (t.1, upload t.1 t.2)))
        ((records.map (prep_record mf vlen)).map Prod.fst) := rfl
  have hj2 : records[j]? = some recj := by
    rw [← List.get?_eq_getElem?]
    exact hj
  have hpre : (records.map (prep_record mf vlen)).get? j =
      some (prep_record mf vlen recj) := by
    rw [List.get?_eq_getElem?, List.getElem?_map, hj2]
    rfl
  have hpre2 : ((records.map (prep_record mf vlen)).map Prod.fst).get? j =
      some (prep_record mf vlen recj).1 := by
    rw [List.get?_eq_getElem?, List.getElem?_map,
        ← List.get?_eq_getElem?, hpre]
    rfl
  rw [hunfold, apply_minio_results_get, hpre2,
      record_updates_enum upload (records.map (prep_record mf vlen)) 0 j
        (Nat.zero_le j), Nat.sub_zero, hpre]
  simp [prep_record_tasks]

/-- C8: if every upload of a record's object-store-bound fields raises,
the record's relational row is still inserted: it is exactly the field
split's row, carries no `minio_path` reference, and keeps every
non-object-store field with its value; a different record whose upload
succeeded still gets its `minio_path` reference. -/
theorem upload_failure_row_spec {V : Type} (mf : List String)
    (vlen : V → Nat) (records : List (List (String × Option V)))
    (upload : Nat → V → Except String String) (i : Nat)
    (rec : List (String × Option V))
    (hrec : records.get? i = some rec)
    (hfail : ∀ v ∈ minioValues mf rec, ∃ e, upload i v = Except.error e)
    (hmp : "minio_path" ∉ rec.map Prod.fst)
    (hnodup : (rec.map Prod.fst).Nodup) :
    ((process_batch_rows mf vlen records upload).get? i =
        some (prep_record mf vlen rec).1 ∧
      rowFind "minio_path" (prep_record mf vlen rec).1 = none ∧
      ∀ name val, (name, val) ∈ rec → name ∉ mf → name ≠ "file_size" →
        rowFind name (prep_record mf vlen rec).1 =
          some (RowVal.val val)) ∧
    ∀ j recj v p, records.get? j = some recj →
      minioValues mf recj = [v] → upload j v = Except.ok p →
      (process_batch_rows mf vlen records upload).get? j =
        some (dictInsert (prep_record mf vlen recj).1 "minio_path"
          (RowVal.path p)) ∧
      rowFind "minio_path"
          (dictInsert (prep_record mf vlen recj).1 "minio_path"
            (RowVal.path p)) = some (RowVal.path p) := by
  refine ⟨⟨?_, ?_, ?_⟩, ?_⟩
  · rw [process_batch_rows_get mf vlen records upload i rec hrec]
    have herr : ∀ r ∈ (minioValues mf rec).map (fun v => upload i v),
        ∃ e, r = Except.error e := by
      intro r hr
      rcases List.mem_map.mp hr with ⟨v, hv, rfl⟩
      exact hfail v hv
    rw [apply_record_updates_all_error _ _ herr]
  · exact prep_record_no_mp mf vlen rec hmp
  · intro name val hmem hnm hfs
    exact prep_foldl_find_mem mf vlen rec ([], []) name val hmem hnm hfs
      hnodup
  · intro j recj v p hj hmv hok
    constructor
    · rw [process_batch_rows_get mf vlen records upload j recj hj, hmv]
      simp only [List.map_cons, List.map_nil, hok]
      rfl
    · exact rowFind_dictInsert_self _ _ _

/-- C8 witness: a two-record batch where record 0's `data` upload raises
and record 1's succeeds; record 0's row keeps its `note` field and is
still persisted as split. -/
theorem upload_failure_row_spec_witness :
    rowFind "note" (prep_record ["data"] (fun v : Nat => v)
        [("data", some 1), ("note", some 2)]).1 =
      some (RowVal.val (some 2)) ∧
    (process_batch_rows ["data"] (fun v : Nat => v)
        [[("data", some 1), ("note", some 2)], [("data", some 3)]]
        (fun i _ => if i = 0 then Except.error "boom"
                    else Except.ok "p1")).get? 0 =
      some (prep_record ["data"] (fun v : Nat => v)
        [("data", some 1), ("note", some 2)]).1 := by
  have h := upload_failure_row_spec ["data"] (fun v : Nat => v)
    [[("data", some 1), ("note", some 2)], [("data", some 3)]]
    (fun i _ => if i = 0 then Except.error "boom" else Except.ok "p1")
    0 [("data", some 1), ("note", some 2)] rfl
    (fun v _ => ⟨"boom", rfl⟩) (by decide) (by decide)
  exact ⟨h.1.2.2 "note" (some 2) (by decide) (by decide) (by decide),
         h.1.1⟩
